import Mathlib

/-!
Verification of `marl::ConditionVariable`
(`src/3rdparty/marl/include/marl/conditionvariable.h`).

The condition variable is a hybrid synchronization primitive: a caller is
either a scheduler fiber (cooperative mode) or a plain OS thread (fallback
mode).  Its state is the registry `waiting` of parked fiber handles plus the
two atomic counters `numWaiting` and `numWaitingOnCondition`.

Shallow embedding conventions:
* A predicate is a stream `Nat → Bool`: the value returned by the k-th
  evaluation of `pred()` during the call (index 0 is the entry check).
* The system clock is a stream `Nat → Int`: the value of
  `std::chrono::system_clock::now()` at its k-th sampling; at loop
  iteration k the code makes predicate evaluation k and clock sample k.
* A cooperative yield hands the worker thread to other tasks; whatever
  those tasks do to the shared condition-variable state is modelled by an
  interference function `env : Nat → State → State` applied at each yield.
* Loops take explicit fuel and return `none` when the call has not yet
  returned (the fiber is still blocked); every `some` result is an actual
  return of the C++ call, paired with the index of the final predicate
  evaluation / clock sample that decided it.
-/

namespace Marl

/-- A fiber handle identity (`Scheduler::Fiber*`); the condition variable
only stores and compares these, never dereferences them, so a bare
identifier suffices. -/
abbrev FiberId := Nat

/-- Which fallback-condition-variable signal a notify call issued:
`condition.notify_one()` or `condition.notify_all()`. -/
inductive SignalMode where
  | one
  | all
deriving DecidableEq

/-- The mutable state of one `marl::ConditionVariable` instance:
`waiting` is the `std::unordered_set<Scheduler::Fiber*>` registry,
`numWaiting` and `numWaitingOnCondition` are the two `std::atomic<int>`
counters.  (The internal `mutex` guards only the registry's short critical
sections and is not itself part of the observable state.) -/
structure ConditionVariable where
  waiting : Finset FiberId
  numWaiting : Int
  numWaitingOnCondition : Int
deriving DecidableEq

/-- Everything a `notify_one` / `notify_all` call does, beyond the state it
returns: which fibers it rescheduled (`fiber->schedule()` calls), whether it
acquired the internal registry mutex, and which fallback signal (if any) it
issued. -/
structure NotifyResult where
  state : ConditionVariable
  rescheduled : Finset FiberId
  tookRegistryLock : Bool
  signalled : Option SignalMode
deriving DecidableEq

/-- The execution mode of a wait call, decided once at its start by
`Scheduler::Fiber::current()`: a live fiber handle, or none (plain OS
thread). -/
inductive Mode where
  | fiber (f : FiberId)
  | thread
deriving DecidableEq

/-- Interference by other threads and fibers while the caller is suspended
at yield number k. -/
abbrev Env := Nat → ConditionVariable → ConditionVariable

namespace ConditionVariable

/-- `ConditionVariable::notify_one`: fast-path return when `numWaiting == 0`;
otherwise, under the registry mutex, `schedule()` every registered fiber and
clear the registry, then `condition.notify_one()` when
`numWaitingOnCondition > 0`. -/
def notify_one (s : ConditionVariable) : NotifyResult :=
  if s.numWaiting = 0 then
    ⟨s, ∅, false, none⟩
  else
    { state := { s with waiting := ∅ }
      rescheduled := s.waiting
      tookRegistryLock := true
      signalled := if 0 < s.numWaitingOnCondition then some SignalMode.one else none }

/-- `ConditionVariable::notify_all`: identical to `notify_one` except that
the fallback signal is `condition.notify_all()`. -/
def notify_all (s : ConditionVariable) : NotifyResult :=
  if s.numWaiting = 0 then
    ⟨s, ∅, false, none⟩
  else
    { state := { s with waiting := ∅ }
      rescheduled := s.waiting
      tookRegistryLock := true
      signalled := if 0 < s.numWaitingOnCondition then some SignalMode.all else none }

/-- Modelled from the spec: `std::condition_variable::wait(lock, pred)`, the
external OS primitive the thread-mode branch of `wait` delegates to (not part
of this repository's sources).  It blocks the thread, re-evaluating the
predicate at successive wakeups, and returns only once the predicate holds;
the result is the index of the successful evaluation, `none` while still
blocked at fuel exhaustion. -/
def osCondWait (p : Nat → Bool) : Nat → Nat → Option Nat
  | 0, _ => none
  | fuel + 1, k => if p k then some k else osCondWait p fuel (k + 1)

/-- Modelled from the spec: `std::condition_variable::wait_until(lock,
timeout, pred)`, the external OS primitive the thread-mode branch of
`wait_until` delegates to (not part of this repository's sources).  Same
boolean contract as the fiber path: `false` exactly when the deadline passed
with the predicate still false; the result carries the index of the deciding
evaluation. -/
def osCondWaitUntil (timeout : Int) (p : Nat → Bool) (c : Nat → Int) :
    Nat → Nat → Option (Bool × Nat)
  | 0, _ => none
  | fuel + 1, k =>
    if p k then some (true, k)
    else if timeout ≤ c k then some (false, k)
    else osCondWaitUntil timeout p c fuel (k + 1)

/-- The fiber-mode loop of `ConditionVariable::wait`:
`while (!pred()) { mutex.lock(); waiting.emplace(fiber); mutex.unlock();
lock.unlock(); fiber->yield(); lock.lock(); }`.
The scheduler's `yield()` (an external collaborator) is modelled from the
spec as the interference point `env k`.  Returns the state and the index of
the predicate evaluation that came back true. -/
def waitFiberLoop (f : FiberId) (p : Nat → Bool) (env : Env) :
    Nat → Nat → ConditionVariable → Option (ConditionVariable × Nat)
  | 0, _, _ => none
  | fuel + 1, k, s =>
    if p k then some (s, k)
    else
      let s1 : ConditionVariable := { s with waiting := insert f s.waiting }
      waitFiberLoop f p env fuel (k + 1) (env k s1)

/-- `ConditionVariable::wait(lock, pred)`: entry predicate check, then
`numWaiting++`; fiber mode runs `waitFiberLoop`, thread mode brackets the
delegated OS wait with `numWaitingOnCondition++` / `--`; finally
`numWaiting--` before returning. -/
def wait (mode : Mode) (p : Nat → Bool) (env : Env) (fuel : Nat)
    (s : ConditionVariable) : Option (ConditionVariable × Nat) :=
  if p 0 then some (s, 0)
  else
    let s1 : ConditionVariable := { s with numWaiting := s.numWaiting + 1 }
    match mode with
    | Mode.fiber f =>
      match waitFiberLoop f p env fuel 1 s1 with
      | none => none
      | some (s2, j) => some ({ s2 with numWaiting := s2.numWaiting - 1 }, j)
    | Mode.thread =>
      let s2 : ConditionVariable :=
        { s1 with numWaitingOnCondition := s1.numWaitingOnCondition + 1 }
      match osCondWait p fuel 1 with
      | none => none
      | some j =>
        let s3 : ConditionVariable :=
          { s2 with numWaitingOnCondition := s2.numWaitingOnCondition - 1 }
        some ({ s3 with numWaiting := s3.numWaiting - 1 }, j)

/-- The fiber-mode loop of `ConditionVariable::wait_until`: each iteration
re-checks the predicate, registers the fiber under the registry mutex,
performs `fiber->yield_until(timeout)` (external collaborator, modelled from
the spec as the interference point `env k`), and on resumption tests
`std::chrono::system_clock::now() >= timeout`; on timeout it erases the
fiber's registry entry under the mutex and returns `false`. -/
def waitUntilFiberLoop (f : FiberId) (timeout : Int) (p : Nat → Bool)
    (c : Nat → Int) (env : Env) :
    Nat → Nat → ConditionVariable → Option (Bool × ConditionVariable × Nat)
  | 0, _, _ => none
  | fuel + 1, k, s =>
    if p k then some (true, s, k)
    else
      let s1 : ConditionVariable := { s with waiting := insert f s.waiting }
      let s2 := env k s1
      if timeout ≤ c k then
        some (false, { s2 with waiting := s2.waiting.erase f }, k)
      else
        waitUntilFiberLoop f timeout p c env fuel (k + 1) s2

/-- `ConditionVariable::wait_until(lock, timeout, pred)`: entry predicate
check, `numWaiting++` with `defer(numWaiting--)` — the `defer` utility is an
external collaborator modelled from the spec as a decrement performed on
every return path; fiber mode runs `waitUntilFiberLoop`, thread mode
brackets the delegated OS deadline wait with `numWaitingOnCondition++` and a
deferred `--`. -/
def wait_until (mode : Mode) (timeout : Int) (p : Nat → Bool) (c : Nat → Int)
    (env : Env) (fuel : Nat) (s : ConditionVariable) :
    Option (Bool × ConditionVariable × Nat) :=
  if p 0 then some (true, s, 0)
  else
    let s1 : ConditionVariable := { s with numWaiting := s.numWaiting + 1 }
    match mode with
    | Mode.fiber f =>
      match waitUntilFiberLoop f timeout p c env fuel 1 s1 with
      | none => none
      | some (b, s2, j) => some (b, { s2 with numWaiting := s2.numWaiting - 1 }, j)
    | Mode.thread =>
      let s2 : ConditionVariable :=
        { s1 with numWaitingOnCondition := s1.numWaitingOnCondition + 1 }
      match osCondWaitUntil timeout p c fuel 1 with
      | none => none
      | some (b, j) =>
        let s3 : ConditionVariable :=
          { s2 with numWaitingOnCondition := s2.numWaitingOnCondition - 1 }
        some (b, { s3 with numWaiting := s3.numWaiting - 1 }, j)

/-- `ConditionVariable::wait_for(lock, duration, pred)`:
`return wait_until(lock, std::chrono::system_clock::now() + duration, pred);`
where `now0` is the single entry sample of the system clock. -/
def wait_for (mode : Mode) (now0 d : Int) (p : Nat → Bool) (c : Nat → Int)
    (env : Env) (fuel : Nat) (s : ConditionVariable) :
    Option (Bool × ConditionVariable × Nat) :=
  wait_until mode (now0 + d) p c env fuel s

/-- The interference function never touches the two atomic waiter counters
(other parties only read them or keep them balanced; claim C10 proves the
notify operations in particular preserve them). -/
def PreservesCounters (env : Env) : Prop :=
  ∀ k σ, (env k σ).numWaiting = σ.numWaiting ∧
    (env k σ).numWaitingOnCondition = σ.numWaitingOnCondition

/- Helper lemmas about the loops, shared by the claim theorems. -/

theorem waitFiberLoop_pred (f : FiberId) (p : Nat → Bool) (env : Env)
    (fuel : Nat) :
    ∀ k s s' j, waitFiberLoop f p env fuel k s = some (s', j) → p j = true := by
  induction fuel with
  | zero => intro k s s' j h; simp [waitFiberLoop] at h
  | succ fuel ih =>
    intro k s s' j h
    simp only [waitFiberLoop] at h
    by_cases hpk : p k = true
    · rw [if_pos hpk] at h
      cases h; exact hpk
    · rw [if_neg (by simp [hpk])] at h
      exact ih (k + 1) _ s' j h

theorem waitFiberLoop_counters (f : FiberId) (p : Nat → Bool) (env : Env)
    (henv : PreservesCounters env) (fuel : Nat) :
    ∀ k s s' j, waitFiberLoop f p env fuel k s = some (s', j) →
      s'.numWaiting = s.numWaiting ∧
      s'.numWaitingOnCondition = s.numWaitingOnCondition := by
  induction fuel with
  | zero => intro k s s' j h; simp [waitFiberLoop] at h
  | succ fuel ih =>
    intro k s s' j h
    simp only [waitFiberLoop] at h
    by_cases hpk : p k = true
    · rw [if_pos hpk] at h
      cases h; exact ⟨rfl, rfl⟩
    · rw [if_neg (by simp [hpk])] at h
      have := ih (k + 1) _ s' j h
      obtain ⟨h1, h2⟩ := henv k { s with waiting := insert f s.waiting }
      constructor
      · rw [this.1, h1]
      · rw [this.2, h2]

theorem waitUntilFiberLoop_true_pred (f : FiberId) (t : Int) (p : Nat → Bool)
    (c : Nat → Int) (env : Env) (fuel : Nat) :
    ∀ k s s' j, waitUntilFiberLoop f t p c env fuel k s = some (true, s', j) →
      p j = true := by
  induction fuel with
  | zero => intro k s s' j h; simp [waitUntilFiberLoop] at h
  | succ fuel ih =>
    intro k s s' j h
    simp only [waitUntilFiberLoop] at h
    by_cases hpk : p k = true
    · rw [if_pos hpk] at h
      cases h; exact hpk
    · rw [if_neg (by simp [hpk])] at h
      by_cases htc : t ≤ c k
      · rw [if_pos htc] at h; cases h
      · rw [if_neg htc] at h
        exact ih (k + 1) _ s' j h

theorem waitUntilFiberLoop_false_inv (f : FiberId) (t : Int) (p : Nat → Bool)
    (c : Nat → Int) (env : Env) (fuel : Nat) :
    ∀ k s s' j, waitUntilFiberLoop f t p c env fuel k s = some (false, s', j) →
      p j = false ∧ t ≤ c j ∧ f ∉ s'.waiting := by
  induction fuel with
  | zero => intro k s s' j h; simp [waitUntilFiberLoop] at h
  | succ fuel ih =>
    intro k s s' j h
    simp only [waitUntilFiberLoop] at h
    by_cases hpk : p k = true
    · rw [if_pos hpk] at h; cases h
    · rw [if_neg (by simp [hpk])] at h
      by_cases htc : t ≤ c k
      · rw [if_pos htc] at h
        cases h
        exact ⟨by simp [hpk], htc, Finset.not_mem_erase f _⟩
      · rw [if_neg htc] at h
        exact ih (k + 1) _ s' j h

theorem waitUntilFiberLoop_counters (f : FiberId) (t : Int) (p : Nat → Bool)
    (c : Nat → Int) (env : Env) (henv : PreservesCounters env) (fuel : Nat) :
    ∀ k s b s' j, waitUntilFiberLoop f t p c env fuel k s = some (b, s', j) →
      s'.numWaiting = s.numWaiting ∧
      s'.numWaitingOnCondition = s.numWaitingOnCondition := by
  induction fuel with
  | zero => intro k s b s' j h; simp [waitUntilFiberLoop] at h
  | succ fuel ih =>
    intro k s b s' j h
    simp only [waitUntilFiberLoop] at h
    by_cases hpk : p k = true
    · rw [if_pos hpk] at h
      cases h; exact ⟨rfl, rfl⟩
    · rw [if_neg (by simp [hpk])] at h
      obtain ⟨h1, h2⟩ := henv k { s with waiting := insert f s.waiting }
      by_cases htc : t ≤ c k
      · rw [if_pos htc] at h
        cases h
        exact ⟨h1, h2⟩
      · rw [if_neg htc] at h
        have := ih (k + 1) _ b s' j h
        exact ⟨this.1.trans h1, this.2.trans h2⟩

theorem osCondWait_pred (p : Nat → Bool) (fuel : Nat) :
    ∀ k j, osCondWait p fuel k = some j → p j = true := by
  induction fuel with
  | zero => intro k j h; simp [osCondWait] at h
  | succ fuel ih =>
    intro k j h
    simp only [osCondWait] at h
    by_cases hpk : p k = true
    · rw [if_pos hpk] at h; cases h; exact hpk
    · rw [if_neg (by simp [hpk])] at h
      exact ih (k + 1) j h

theorem osCondWaitUntil_true_pred (t : Int) (p : Nat → Bool) (c : Nat → Int)
    (fuel : Nat) :
    ∀ k j, osCondWaitUntil t p c fuel k = some (true, j) → p j = true := by
  induction fuel with
  | zero => intro k j h; simp [osCondWaitUntil] at h
  | succ fuel ih =>
    intro k j h
    simp only [osCondWaitUntil] at h
    by_cases hpk : p k = true
    · rw [if_pos hpk] at h; cases h; exact hpk
    · rw [if_neg (by simp [hpk])] at h
      by_cases htc : t ≤ c k
      · rw [if_pos htc] at h; cases h
      · rw [if_neg htc] at h
        exact ih (k + 1) j h

theorem osCondWaitUntil_false_inv (t : Int) (p : Nat → Bool) (c : Nat → Int)
    (fuel : Nat) :
    ∀ k j, osCondWaitUntil t p c fuel k = some (false, j) →
      p j = false ∧ t ≤ c j := by
  induction fuel with
  | zero => intro k j h; simp [osCondWaitUntil] at h
  | succ fuel ih =>
    intro k j h
    simp only [osCondWaitUntil] at h
    by_cases hpk : p k = true
    · rw [if_pos hpk] at h; cases h
    · rw [if_neg (by simp [hpk])] at h
      by_cases htc : t ≤ c k
      · rw [if_pos htc] at h; cases h; exact ⟨by simp [hpk], htc⟩
      · rw [if_neg htc] at h
        exact ih (k + 1) j h

theorem waitUntilFiberLoop_timeout_step (f : FiberId) (t : Int) (p : Nat → Bool)
    (c : Nat → Int) (env : Env) (fuel k : Nat) (s : ConditionVariable)
    (hpk : p k = false) (htc : t ≤ c k) :
    waitUntilFiberLoop f t p c env (fuel + 1) k s =
      some (false,
        { env k { s with waiting := insert f s.waiting } with
          waiting := (env k { s with waiting := insert f s.waiting }).waiting.erase f },
        k) := by
  simp only [waitUntilFiberLoop]
  rw [if_neg (by simp [hpk]), if_pos htc]

theorem osCondWaitUntil_timeout_step (t : Int) (p : Nat → Bool) (c : Nat → Int)
    (fuel k : Nat) (hpk : p k = false) (htc : t ≤ c k) :
    osCondWaitUntil t p c (fuel + 1) k = some (false, k) := by
  simp only [osCondWaitUntil]
  rw [if_neg (by simp [hpk]), if_pos htc]

/-- Claim C2: `notify_one` and `notify_all` return immediately without taking
the registry lock when `numWaiting` is zero; otherwise, under the registry
lock, they reschedule every fiber in the registry and clear it entirely, and
afterwards signal the fallback OS condition variable (one waiter for
`notify_one`, all for `notify_all`) exactly when `numWaitingOnCondition` is
positive.  The fiber-waiter handling of the two operations is identical. -/
theorem notify_spec (s : ConditionVariable) :
    (s.numWaiting = 0 →
      notify_one s = ⟨s, ∅, false, none⟩ ∧ notify_all s = ⟨s, ∅, false, none⟩) ∧
    (s.numWaiting ≠ 0 →
      (notify_one s).state.waiting = ∅ ∧
      (notify_one s).rescheduled = s.waiting ∧
      (notify_one s).tookRegistryLock = true ∧
      ((notify_one s).signalled = some SignalMode.one ↔ 0 < s.numWaitingOnCondition) ∧
      (notify_all s).state.waiting = ∅ ∧
      (notify_all s).rescheduled = s.waiting ∧
      (notify_all s).tookRegistryLock = true ∧
      ((notify_all s).signalled = some SignalMode.all ↔ 0 < s.numWaitingOnCondition) ∧
      (notify_one s).state = (notify_all s).state ∧
      (notify_one s).rescheduled = (notify_all s).rescheduled) := by
  constructor
  · intro h
    simp [notify_one, notify_all, h]
  · intro h
    simp only [notify_one, notify_all, if_neg h]
    by_cases hc : 0 < s.numWaitingOnCondition <;>
      simp [hc]

theorem notify_spec_witness :
    ((⟨{3}, 2, 1⟩ : ConditionVariable).numWaiting ≠ 0) ∧
    ((notify_one ⟨{3}, 2, 1⟩).state.waiting = ∅ ∧
      (notify_one ⟨{3}, 2, 1⟩).rescheduled = (⟨{3}, 2, 1⟩ : ConditionVariable).waiting ∧
      (notify_one ⟨{3}, 2, 1⟩).tookRegistryLock = true ∧
      ((notify_one ⟨{3}, 2, 1⟩).signalled = some SignalMode.one ↔
        0 < (⟨{3}, 2, 1⟩ : ConditionVariable).numWaitingOnCondition) ∧
      (notify_all ⟨{3}, 2, 1⟩).state.waiting = ∅ ∧
      (notify_all ⟨{3}, 2, 1⟩).rescheduled = (⟨{3}, 2, 1⟩ : ConditionVariable).waiting ∧
      (notify_all ⟨{3}, 2, 1⟩).tookRegistryLock = true ∧
      ((notify_all ⟨{3}, 2, 1⟩).signalled = some SignalMode.all ↔
        0 < (⟨{3}, 2, 1⟩ : ConditionVariable).numWaitingOnCondition) ∧
      (notify_one ⟨{3}, 2, 1⟩).state = (notify_all ⟨{3}, 2, 1⟩).state ∧
      (notify_one ⟨{3}, 2, 1⟩).rescheduled = (notify_all ⟨{3}, 2, 1⟩).rescheduled) :=
  ⟨by decide, (notify_spec ⟨{3}, 2, 1⟩).2 (by decide)⟩

/-- Claim C10: `notify_one` and `notify_all` never modify either waiter
counter, and the only state they mutate is the `waiting` registry, which is
left untouched on the zero-waiter fast path and cleared otherwise. -/
theorem notify_preserves_counters (s : ConditionVariable) :
    (notify_one s).state.numWaiting = s.numWaiting ∧
    (notify_one s).state.numWaitingOnCondition = s.numWaitingOnCondition ∧
    (notify_all s).state.numWaiting = s.numWaiting ∧
    (notify_all s).state.numWaitingOnCondition = s.numWaitingOnCondition ∧
    (notify_one s).state.waiting = (if s.numWaiting = 0 then s.waiting else ∅) ∧
    (notify_all s).state.waiting = (if s.numWaiting = 0 then s.waiting else ∅) := by
  by_cases h : s.numWaiting = 0 <;> simp [notify_one, notify_all, h]

/-- Claim C3: when the predicate is already true at call entry, `wait`
returns immediately and `wait_until` / `wait_for` return `true` immediately,
without blocking, without touching the wait registry and without changing
either waiter counter (the returned state is exactly the entry state). -/
theorem wait_pred_true_entry (mode : Mode) (t now0 d : Int) (p : Nat → Bool)
    (c : Nat → Int) (env : Env) (fuel : Nat) (s : ConditionVariable)
    (h : p 0 = true) :
    wait mode p env fuel s = some (s, 0) ∧
    wait_until mode t p c env fuel s = some (true, s, 0) ∧
    wait_for mode now0 d p c env fuel s = some (true, s, 0) := by
  refine ⟨?_, ?_, ?_⟩ <;> simp [wait, wait_until, wait_for, h]

theorem wait_pred_true_entry_witness :
    (fun _ : Nat => true) 0 = true ∧
    (wait Mode.thread (fun _ => true) (fun _ σ => σ) 4 ⟨∅, 0, 0⟩ =
        some (⟨∅, 0, 0⟩, 0) ∧
      wait_until Mode.thread 9 (fun _ => true) (fun _ => 0) (fun _ σ => σ) 4
          ⟨∅, 0, 0⟩ = some (true, ⟨∅, 0, 0⟩, 0) ∧
      wait_for Mode.thread 1 2 (fun _ => true) (fun _ => 0) (fun _ σ => σ) 4
          ⟨∅, 0, 0⟩ = some (true, ⟨∅, 0, 0⟩, 0)) :=
  ⟨rfl, wait_pred_true_entry Mode.thread 9 1 2 (fun _ => true) (fun _ => 0)
    (fun _ σ => σ) 4 ⟨∅, 0, 0⟩ rfl⟩

/-- Claim C7: `wait_for(lock, d, pred)` is exactly
`wait_until(lock, now + d, pred)` with the system clock sampled once at call
entry: the same boolean result and the same effect on the state. -/
theorem wait_for_eq_wait_until (mode : Mode) (now0 d : Int) (p : Nat → Bool)
    (c : Nat → Int) (env : Env) (fuel : Nat) (s : ConditionVariable) :
    wait_for mode now0 d p c env fuel s =
      wait_until mode (now0 + d) p c env fuel s := rfl

/-- Claim C8: whenever the untimed `wait` returns, the predicate's final
evaluation was true; there is no other outcome — the call cannot fail, it
can only remain blocked (`none`). -/
theorem wait_returns_pred_true (mode : Mode) (p : Nat → Bool) (env : Env)
    (fuel : Nat) (s s' : ConditionVariable) (j : Nat)
    (h : wait mode p env fuel s = some (s', j)) : p j = true := by
  unfold wait at h
  by_cases hp0 : p 0 = true
  · rw [if_pos hp0] at h
    cases h
    exact hp0
  · rw [if_neg (by simp [hp0])] at h
    cases mode with
    | fiber f =>
      cases hl : waitFiberLoop f p env fuel 1 { s with numWaiting := s.numWaiting + 1 } with
      | none => simp [hl] at h
      | some r =>
        obtain ⟨s2, j2⟩ := r
        simp only [hl] at h
        cases h
        exact waitFiberLoop_pred f p env fuel 1 _ _ _ hl
    | thread =>
      cases hl : osCondWait p fuel 1 with
      | none => simp [hl] at h
      | some j2 =>
        simp only [hl] at h
        cases h
        exact osCondWait_pred p fuel 1 _ hl

theorem wait_returns_pred_true_witness :
    (fun n : Nat => decide (n = 2)) 2 = true :=
  wait_returns_pred_true (Mode.fiber 6) (fun n => decide (n = 2)) (fun _ σ => σ)
    5 ⟨∅, 0, 0⟩ ⟨{6}, 0, 0⟩ 2 (by decide)

/-- Claim C5: for every completed `wait`, `wait_until` or `wait_for` call,
both waiter counters return to their entry values on every exit path
(timeout included), provided the interference running while the caller is
suspended keeps the counters unchanged. -/
theorem wait_counters_balanced (mode : Mode) (t now0 d : Int) (p : Nat → Bool)
    (c : Nat → Int) (env : Env) (fuel : Nat) (s : ConditionVariable)
    (henv : PreservesCounters env) :
    (∀ s' j, wait mode p env fuel s = some (s', j) →
      s'.numWaiting = s.numWaiting ∧
      s'.numWaitingOnCondition = s.numWaitingOnCondition) ∧
    (∀ b s' j, wait_until mode t p c env fuel s = some (b, s', j) →
      s'.numWaiting = s.numWaiting ∧
      s'.numWaitingOnCondition = s.numWaitingOnCondition) ∧
    (∀ b s' j, wait_for mode now0 d p c env fuel s = some (b, s', j) →
      s'.numWaiting = s.numWaiting ∧
      s'.numWaitingOnCondition = s.numWaitingOnCondition) := by
  have huntil : ∀ t' b s' j, wait_until mode t' p c env fuel s = some (b, s', j) →
      s'.numWaiting = s.numWaiting ∧
      s'.numWaitingOnCondition = s.numWaitingOnCondition := by
    intro t' b s' j h
    unfold wait_until at h
    by_cases hp0 : p 0 = true
    · rw [if_pos hp0] at h
      cases h
      exact ⟨rfl, rfl⟩
    · rw [if_neg (by simp [hp0])] at h
      cases mode with
      | fiber f =>
        cases hl : waitUntilFiberLoop f t' p c env fuel 1
            { s with numWaiting := s.numWaiting + 1 } with
        | none => simp [hl] at h
        | some r =>
          obtain ⟨b2, s2, j2⟩ := r
          simp only [hl] at h
          cases h
          have hc := waitUntilFiberLoop_counters f t' p c env henv fuel 1 _ _ _ _ hl
          refine ⟨?_, hc.2⟩
          have h1 : s2.numWaiting = s.numWaiting + 1 := hc.1
          simp only [h1]
          omega
      | thread =>
        cases hl : osCondWaitUntil t' p c fuel 1 with
        | none => simp [hl] at h
        | some r =>
          obtain ⟨b2, j2⟩ := r
          simp only [hl] at h
          cases h
          constructor <;> simp
  have hwait : ∀ s' j, wait mode p env fuel s = some (s', j) →
      s'.numWaiting = s.numWaiting ∧
      s'.numWaitingOnCondition = s.numWaitingOnCondition := by
    intro s' j h
    unfold wait at h
    by_cases hp0 : p 0 = true
    · rw [if_pos hp0] at h
      cases h
      exact ⟨rfl, rfl⟩
    · rw [if_neg (by simp [hp0])] at h
      cases mode with
      | fiber f =>
        cases hl : waitFiberLoop f p env fuel 1
            { s with numWaiting := s.numWaiting + 1 } with
        | none => simp [hl] at h
        | some r =>
          obtain ⟨s2, j2⟩ := r
          simp only [hl] at h
          cases h
          have hc := waitFiberLoop_counters f p env henv fuel 1 _ _ _ hl
          refine ⟨?_, hc.2⟩
          have h1 : s2.numWaiting = s.numWaiting + 1 := hc.1
          simp only [h1]
          omega
      | thread =>
        cases hl : osCondWait p fuel 1 with
        | none => simp [hl] at h
        | some j2 =>
          simp only [hl] at h
          cases h
          constructor <;> simp
  exact ⟨hwait, fun b s' j h => huntil t b s' j h,
    fun b s' j h => huntil (now0 + d) b s' j h⟩

theorem wait_counters_balanced_witness :
    PreservesCounters (fun _ σ => σ) ∧
    ((⟨∅, 0, 0⟩ : ConditionVariable).numWaiting =
        (⟨∅, 0, 0⟩ : ConditionVariable).numWaiting ∧
      (⟨∅, 0, 0⟩ : ConditionVariable).numWaitingOnCondition =
        (⟨∅, 0, 0⟩ : ConditionVariable).numWaitingOnCondition) :=
  ⟨fun _ _ => ⟨rfl, rfl⟩,
    (wait_counters_balanced (Mode.fiber 4) 0 0 0 (fun n => decide (n = 1))
        (fun _ => 0) (fun _ σ => σ) 3 ⟨∅, 0, 0⟩ (fun _ _ => ⟨rfl, rfl⟩)).1
      ⟨∅, 0, 0⟩ 1 (by decide)⟩

/-- Claim C1: for every completed `wait_until` call, the result is `true`
exactly when the final predicate evaluation was true (immediately at entry or
after waking), and `false` exactly when the system clock had reached the
deadline while the predicate was still false; `wait_for` obeys the same
contract with deadline `now0 + d`. -/
theorem wait_until_boolean_contract (mode : Mode) (t now0 d : Int)
    (p : Nat → Bool) (c : Nat → Int) (env : Env) (fuel : Nat)
    (s : ConditionVariable) :
    (∀ b s' j, wait_until mode t p c env fuel s = some (b, s', j) →
      (b = true → p j = true) ∧ (b = false → p j = false ∧ t ≤ c j)) ∧
    (∀ b s' j, wait_for mode now0 d p c env fuel s = some (b, s', j) →
      (b = true → p j = true) ∧ (b = false → p j = false ∧ now0 + d ≤ c j)) := by
  have huntil : ∀ t' b s' j, wait_until mode t' p c env fuel s = some (b, s', j) →
      (b = true → p j = true) ∧ (b = false → p j = false ∧ t' ≤ c j) := by
    intro t' b s' j h
    unfold wait_until at h
    by_cases hp0 : p 0 = true
    · rw [if_pos hp0] at h
      cases h
      exact ⟨fun _ => hp0, fun hb => Bool.noConfusion hb⟩
    · rw [if_neg (by simp [hp0])] at h
      cases mode with
      | fiber f =>
        cases hl : waitUntilFiberLoop f t' p c env fuel 1
            { s with numWaiting := s.numWaiting + 1 } with
        | none => simp [hl] at h
        | some r =>
          obtain ⟨b2, s2, j2⟩ := r
          simp only [hl] at h
          cases h
          cases b with
          | true =>
            exact ⟨fun _ => waitUntilFiberLoop_true_pred f t' p c env fuel 1 _ _ _ hl,
              fun hb => Bool.noConfusion hb⟩
          | false =>
            have hf := waitUntilFiberLoop_false_inv f t' p c env fuel 1 _ _ _ hl
            exact ⟨fun hb => Bool.noConfusion hb, fun _ => ⟨hf.1, hf.2.1⟩⟩
      | thread =>
        cases hl : osCondWaitUntil t' p c fuel 1 with
        | none => simp [hl] at h
        | some r =>
          obtain ⟨b2, j2⟩ := r
          simp only [hl] at h
          cases h
          cases b with
          | true =>
            exact ⟨fun _ => osCondWaitUntil_true_pred t' p c fuel 1 _ hl,
              fun hb => Bool.noConfusion hb⟩
          | false =>
            have hf := osCondWaitUntil_false_inv t' p c fuel 1 _ hl
            exact ⟨fun hb => Bool.noConfusion hb, fun _ => hf⟩
  exact ⟨fun b s' j h => huntil t b s' j h,
    fun b s' j h => huntil (now0 + d) b s' j h⟩

theorem wait_until_boolean_contract_witness :
    (true = true → (fun n : Nat => decide (n = 2)) 2 = true) ∧
    (true = false →
      (fun n : Nat => decide (n = 2)) 2 = false ∧
        (5 : Int) ≤ (fun n : Nat => (n : Int)) 2) :=
  (wait_until_boolean_contract (Mode.fiber 7) 5 0 0 (fun n => decide (n = 2))
      (fun n => (n : Int)) (fun _ σ => σ) 5 ⟨∅, 0, 0⟩).1 true ⟨{7}, 0, 0⟩ 2
    (by decide)

/-- Claim C4: in fiber mode, when `wait_until` returns `false` on the
timeout path, the calling fiber's registry entry has been erased before the
return: the returned state never contains the fiber, so no stale
registration is observable by a later notify. -/
theorem wait_until_timeout_erases_fiber (f : FiberId) (t : Int)
    (p : Nat → Bool) (c : Nat → Int) (env : Env) (fuel : Nat)
    (s s' : ConditionVariable) (j : Nat)
    (h : wait_until (Mode.fiber f) t p c env fuel s = some (false, s', j)) :
    f ∉ s'.waiting := by
  unfold wait_until at h
  by_cases hp0 : p 0 = true
  · rw [if_pos hp0] at h
    cases h
  · rw [if_neg (by simp [hp0])] at h
    cases hl : waitUntilFiberLoop f t p c env fuel 1
        { s with numWaiting := s.numWaiting + 1 } with
    | none => simp [hl] at h
    | some r =>
      obtain ⟨b2, s2, j2⟩ := r
      simp only [hl] at h
      cases h
      exact (waitUntilFiberLoop_false_inv f t p c env fuel 1 _ _ _ hl).2.2

theorem wait_until_timeout_erases_fiber_witness :
    (5 : FiberId) ∉ (⟨∅, 0, 0⟩ : ConditionVariable).waiting :=
  wait_until_timeout_erases_fiber 5 0 (fun _ => false) (fun _ => 0)
    (fun _ σ => σ) 2 ⟨∅, 0, 0⟩ ⟨∅, 0, 0⟩ 1 (by decide)

/-- Claim C6: a `wait_until` call whose deadline already lies in the past
and whose predicate evaluates false returns `false` at its very first loop
iteration, in both modes.  The single deadline-aware yield it performs in
fiber mode carries an already-expired deadline (the hypothesis `t ≤ c 1`),
so by the scheduler's `yield_until` contract the caller is never suspended. -/
theorem wait_until_past_deadline (mode : Mode) (t : Int) (p : Nat → Bool)
    (c : Nat → Int) (env : Env) (fuel : Nat) (s : ConditionVariable)
    (h0 : p 0 = false) (h1 : p 1 = false) (ht : t ≤ c 1) :
    (wait_until mode t p c env (fuel + 1) s).map (fun r => (r.1, r.2.2)) =
      some (false, 1) := by
  cases mode with
  | fiber f =>
    simp only [wait_until]
    rw [if_neg (by simp [h0])]
    simp only [waitUntilFiberLoop_timeout_step f t p c env fuel 1
      { s with numWaiting := s.numWaiting + 1 } h1 ht]
    rfl
  | thread =>
    simp only [wait_until]
    rw [if_neg (by simp [h0])]
    simp only [osCondWaitUntil_timeout_step t p c fuel 1 h1 ht]
    rfl

theorem wait_until_past_deadline_witness :
    ((fun _ : Nat => false) 0 = false ∧ (fun _ : Nat => false) 1 = false ∧
      (0 : Int) ≤ (fun _ : Nat => (0 : Int)) 1) ∧
    (wait_until Mode.thread 0 (fun _ => false) (fun _ => 0) (fun _ σ => σ)
        (3 + 1) ⟨∅, 0, 0⟩).map (fun r => (r.1, r.2.2)) = some (false, 1) :=
  ⟨⟨rfl, rfl, le_refl 0⟩,
    wait_until_past_deadline Mode.thread 0 (fun _ => false) (fun _ => 0)
      (fun _ σ => σ) 3 ⟨∅, 0, 0⟩ rfl rfl (le_refl 0)⟩

/-- Claim C9: the fiber-mode timeout decision of `wait_until` consults only
`std::chrono::system_clock::now()` (the stream `c`): the timeout branch is
taken at an iteration exactly when the system clock sample there has reached
the deadline's value; and `wait_for` builds its deadline on the same system
clock, as the entry sample plus the duration. -/
theorem timeout_uses_system_clock (f : FiberId) (t now0 d : Int)
    (p : Nat → Bool) (c : Nat → Int) (env : Env) (fuel k : Nat)
    (s : ConditionVariable) (mode : Mode) :
    (∀ s' j, waitUntilFiberLoop f t p c env fuel k s = some (false, s', j) →
      t ≤ c j) ∧
    (p k = false → t ≤ c k →
      ∃ s', waitUntilFiberLoop f t p c env (fuel + 1) k s =
        some (false, s', k)) ∧
    wait_for mode now0 d p c env fuel s =
      wait_until mode (now0 + d) p c env fuel s := by
  refine ⟨fun s' j h => (waitUntilFiberLoop_false_inv f t p c env fuel k s s' j h).2.1,
    ?_, rfl⟩
  intro hpk htc
  exact ⟨_, waitUntilFiberLoop_timeout_step f t p c env fuel k s hpk htc⟩

theorem timeout_uses_system_clock_witness :
    ∃ s', waitUntilFiberLoop 2 0 (fun _ => false) (fun _ => 0) (fun _ σ => σ)
        (2 + 1) 0 ⟨∅, 0, 0⟩ = some (false, s', 0) :=
  (timeout_uses_system_clock 2 0 0 0 (fun _ => false) (fun _ => 0)
      (fun _ σ => σ) 2 0 ⟨∅, 0, 0⟩ Mode.thread).2.1 rfl (le_refl 0)

end ConditionVariable

end Marl
